import Mathlib

/-!
Shallow embedding of `src/app.py`, a Flask front-end that proxies browser
actions to a remote MCP (tool-invocation protocol) endpoint.

The embedding has two layers, matching the source:

* Bridge layer (`_mcp_call` / `mcp_call`, app.py lines 21-44): the remote
  endpoint and the external effects it involves (connection, handshake,
  tool invocation, JSON decoding of the first content item) are modelled by
  a `Remote` record of effect outcomes; each Python exception is modelled as
  an `Except.error` carrying the exception's message (`str(e)`).

* Route layer (app.py lines 47-192): each handler is a function from a
  `RouteEnv` (the outcomes of the route-level `mcp_call`s, typed by the
  shape each route reads off the parsed JSON) and the request's cookie
  token to a pair of the produced `Response` and the ordered trace of
  bridge calls the handler issued.  Success payloads whose internal shape a
  route actually inspects (event details, team lists) are given structured
  types; payloads a route passes through untouched stay as JSON values.
  A result carrying an `error` key (the bridge's exception record, or a
  remote payload with an `error` field: both take the same branch in the
  Python) is the `Except.error` side, holding the `{error,
  error_description}` record.  An uncaught Python exception inside a
  handler (e.g. `teams[0]` on an error dict) is `Response.crash`.
-/

namespace HtbMcp

/-- JSON-compatible values, the result of `json.loads`. -/
inductive JVal where
  | null
  | bool (b : Bool)
  | num (n : Int)
  | str (s : String)
  | arr (elems : List JVal)
  | obj (fields : List (String × JVal))

/-- A fault message, as produced by `str(e)` on a Python exception. -/
abbrev FaultMsg := String

/-- The raw result object of `session.list_tools()` (app.py line 33):
a listing carrying the remote tool names. -/
structure ToolListing where
  tools : List String
deriving DecidableEq

/-- One element of `result.content` in a tool-call response: a text payload
expected to hold JSON. -/
structure ContentItem where
  text : String
deriving DecidableEq

/-- The raw result of `session.call_tool` (app.py line 35). -/
structure CallToolResult where
  content : List ContentItem
deriving DecidableEq

/-- The external world one bridge call runs against: the outcome of each
effectful step of `_mcp_call` (app.py lines 21-36).  `connect` is the
transport connection opened with the `Authorization: Bearer <token>` header
(the token is `None` when no cookie was sent, hence `Option String`);
`handshake` is `session.initialize()`; `listToolsOp` is
`session.list_tools()`; `callTool` is `session.call_tool(tool, params)`;
`jsonLoads` is the external `json.loads` on a content item's text.  An
`Except.error` is the step raising, with the exception's message. -/
structure Remote where
  connect : Option String → Except FaultMsg Unit
  handshake : Except FaultMsg Unit
  listToolsOp : Except FaultMsg ToolListing
  callTool : String → List (String × JVal) → Except FaultMsg CallToolResult
  jsonLoads : String → Except FaultMsg JVal

/-- What `_mcp_call` produces on success: either the raw tool listing
(`list_tools` branch) or the JSON-parsed first content element. -/
inductive BridgeResult where
  | listing (t : ToolListing)
  | json (v : JVal)

/-- app.py lines 21-36.  `async def _mcp_call(token, tool, params)`: connect,
initialize the session, then either return the raw listing for
`"list_tools"` or invoke the named tool and `json.loads` the first content
element (`result.content[0].text`); indexing an empty `content` raises
`IndexError: list index out of range`. -/
def _mcp_call (r : Remote) (token : Option String) (tool : String)
    (params : List (String × JVal)) : Except FaultMsg BridgeResult :=
  match r.connect token with
  | .error m => .error m
  | .ok _ =>
    match r.handshake with
    | .error m => .error m
    | .ok _ =>
      if tool = "list_tools" then
        match r.listToolsOp with
        | .error m => .error m
        | .ok t => .ok (.listing t)
      else
        match r.callTool tool params with
        | .error m => .error m
        | .ok res =>
          match res.content with
          | [] => .error "list index out of range"
          | item :: _ =>
            match r.jsonLoads item.text with
            | .error m => .error m
            | .ok v => .ok (.json v)

/-- The `{"error": ..., "error_description": ...}` record. -/
structure ErrRec where
  error : String
  error_description : String
deriving DecidableEq

/-- What the synchronous wrapper returns: a success value or the error
record. -/
inductive McpResult where
  | ok (v : BridgeResult)
  | err (e : ErrRec)

/-- app.py lines 40-44.  `def mcp_call(token, tool, params=None)`: run
`_mcp_call(token, tool, params or {})`; any `Exception` `e` is caught and
turned into `{"error": "exception", "error_description": str(e)}`. -/
def mcp_call (r : Remote) (token : Option String) (tool : String)
    (params : Option (List (String × JVal))) : McpResult :=
  match _mcp_call r token tool (params.getD []) with
  | .ok v => .ok v
  | .error m => .err ⟨"exception", m⟩

/-- app.py lines 195-207: the static category table. -/
def categories : List (Nat × String) :=
  [(2, "Web"), (3, "Pwn"), (4, "Crypto"), (5, "Reverse"), (7, "Forensics"),
   (8, "Misc"), (11, "Coding"), (14, "Blockchain"), (15, "Hardware"),
   (16, "Warmup"), (21, "ICS")]

/-- The value `categorie_name` returns: a display string, or the id passed
through unchanged. -/
inductive NameVal where
  | str (s : String)
  | id (n : Nat)
deriving DecidableEq

/-- app.py lines 210-213.  `def categorie_name(categorie_id)`: the mapped
display name when the id is a key of the table, else the id itself. -/
def categorie_name (categorie_id : Nat) : NameVal :=
  match categories.lookup categorie_id with
  | some s => .str s
  | none => .id categorie_id

/-- A challenge record as the event/challenge routes read it: the fields the
code accesses (`id`, `challenge_category_id`, `difficulty`) plus a display
field standing for the rest of the remote-supplied record. -/
structure Challenge where
  id : Nat
  challenge_category_id : Nat
  difficulty : String
  title : String
deriving DecidableEq

/-- app.py line 113: the fixed difficulty precedence. -/
def difficulty_order : List String :=
  ["sanity check", "very easy", "easy", "medium", "hard"]

/-- app.py lines 116-118: the bucket `categories[cat][diff]` built by the
grouping loop — the challenges whose category and difficulty match, in input
order (each matching challenge is appended exactly once, in loop order). -/
def bucket (challenges : List Challenge) (cat : Nat) (diff : String) :
    List Challenge :=
  challenges.filter
    (fun c => c.challenge_category_id == cat && c.difficulty == diff)

/-- The outer keys of the `categories` defaultdict in insertion order:
first occurrences of the category ids, in input order
(Python dicts iterate in insertion order). -/
def keysInOrder : List Nat → List Nat
  | [] => []
  | x :: xs => x :: (keysInOrder xs).filter (fun z => z != x)

/-- One entry of the grouped view model: the display name and the ordered
`difficulty label ↦ bucket` mapping (assoc list in key-insertion order). -/
structure CategoryGroup where
  name : NameVal
  difficulties : List (String × List Challenge)
deriving DecidableEq

/-- app.py lines 124-128: the inner dict comprehension
`{diff: categories[cat_id][diff] for diff in difficulty_order if
categories[cat_id][diff]}` — iterate the fixed order, keep non-empty
buckets. -/
def difficultiesOf (challenges : List Challenge) (cat : Nat) :
    List (String × List Challenge) :=
  (difficulty_order.filter (fun d => !(bucket challenges cat d).isEmpty)).map
    (fun d => (d, bucket challenges cat d))

/-- app.py lines 121-131: the grouped view model, a mapping (assoc list in
dict insertion order) from category id to its `CategoryGroup`. -/
def grouped (challenges : List Challenge) : List (Nat × CategoryGroup) :=
  (keysInOrder (challenges.map (fun c => c.challenge_category_id))).map
    (fun cat_id => (cat_id, ⟨categorie_name cat_id, difficultiesOf challenges cat_id⟩))

/-- app.py lines 158-162: the linear scan of the challenge route.
`challenge_data = {}` then first entry with `chall.get("id") == chal_id`
wins; `none` is the empty record `{}`. -/
def challenge_data (challenges : List Challenge) (chal_id : Nat) :
    Option Challenge :=
  challenges.find? (fun c => c.id == chal_id)

/-- A team record as the join route reads it (`teams[0].get("id")`). -/
structure Team where
  id : Nat
deriving DecidableEq

/-- The `retrieve_ctf` success payload as the event and challenge routes
read it: `details.get("name")` and `details.get("challenges", [])`. -/
structure CtfDetails where
  name : Option String
  challenges : List Challenge

/-- The parameter dict of the `join_ctf_event` call (app.py lines 93-98). -/
structure JoinParams where
  ctf_id : Nat
  team_id : Nat
  consent : Bool
  ctf_password : Option String
deriving DecidableEq

/-- The outcomes of the route-level `mcp_call`s, one field per remote tool
the modelled routes use, each a function of the token the route passes
(`None` when the cookie is absent).  `Except.error` is a result the route's
`"error" in x` check classifies as an error: the bridge's exception record
or a remote payload carrying an `error` key.  Success payloads are typed by
the shape the route reads (structured where inspected, `JVal` where passed
through). -/
structure RouteEnv where
  list_ctf_events : Option String → Except ErrRec JVal
  retrieve_my_teams : Option String → Except ErrRec (List Team)
  join_ctf_event : Option String → JoinParams → Except ErrRec JVal
  retrieve_ctf : Option String → Nat → Except ErrRec CtfDetails
  get_download_link : Option String → Nat → Except ErrRec JVal

/-- One bridge call a route handler issued: the tool, the token passed, and
the parameters. -/
inductive TraceCall where
  | list_ctf_events (token : Option String)
  | retrieve_my_teams (token : Option String)
  | join_ctf_event (token : Option String) (p : JoinParams)
  | retrieve_ctf (token : Option String) (ctf_id : Nat)
  | get_download_link (token : Option String) (challenge_id : Nat)
deriving DecidableEq

/-- The HTTP response a modelled handler produces.  `crash` is an uncaught
Python exception escaping the handler (Flask would answer 500). -/
inductive Response where
  | redirect (loc : String)
  | errorPage (e : ErrRec)
  | indexPage (events : JVal)
  | eventPage (event_name : Option String) (grp : List (Nat × CategoryGroup))
      (event_id : Nat)
  | challengePage (chal_id : Nat) (event_id : Nat) (chal : Option Challenge)
      (download_link : Except ErrRec JVal)
  | crash (msg : String)

/-- Python truthiness of the cookie value: `if not token` fires on a missing
cookie and on the empty string. -/
def truthy : Option String → Bool
  | none => false
  | some s => s != ""

/-- app.py lines 59-68, route `/`: redirect to `/login` when the token is
falsy, else one `list_ctf_events` call; error record → error view, success →
index view. -/
def home (env : RouteEnv) (token : Option String) : Response × List TraceCall :=
  if truthy token then
    match env.list_ctf_events token with
    | .error e => (.errorPage e, [.list_ctf_events token])
    | .ok events => (.indexPage events, [.list_ctf_events token])
  else (.redirect "/login", [])

/-- app.py lines 86-102, route `/join/<event_id>`: no token check.  Fetch
the caller's teams; `teams[0]` on the error record raises `KeyError: 0` and
on an empty list raises `IndexError` (both uncaught → crash); else call
`join_ctf_event` with `{ctf_id, team_id: first team's id, consent: True,
ctf_password: None}`; error record → error view, success → redirect `/`. -/
def join (env : RouteEnv) (token : Option String) (event_id : Nat) :
    Response × List TraceCall :=
  match env.retrieve_my_teams token with
  | .error _ => (.crash "KeyError: 0", [.retrieve_my_teams token])
  | .ok [] => (.crash "list index out of range", [.retrieve_my_teams token])
  | .ok (t :: _) =>
    match env.join_ctf_event token ⟨event_id, t.id, true, none⟩ with
    | .error e =>
        (.errorPage e,
         [.retrieve_my_teams token, .join_ctf_event token ⟨event_id, t.id, true, none⟩])
    | .ok _ =>
        (.redirect "/",
         [.retrieve_my_teams token, .join_ctf_event token ⟨event_id, t.id, true, none⟩])

/-- app.py lines 105-139, route `/event/<event_id>`: no token check.  One
`retrieve_ctf` call; error record → error view, else render the grouped
view model built from the challenge list. -/
def event (env : RouteEnv) (token : Option String) (event_id : Nat) :
    Response × List TraceCall :=
  match env.retrieve_ctf token event_id with
  | .error e => (.errorPage e, [.retrieve_ctf token event_id])
  | .ok details =>
      (.eventPage details.name (grouped details.challenges) event_id,
       [.retrieve_ctf token event_id])

/-- app.py lines 151-170, route `/challenge/<event_id>/<chal_id>`: no token
check.  `retrieve_ctf`; error record → error view; else unconditionally
fetch the download link, scan the challenge list for the id, and render
challenge view with the scan result and the download-link result verbatim. -/
def challenge (env : RouteEnv) (token : Option String)
    (event_id chal_id : Nat) : Response × List TraceCall :=
  match env.retrieve_ctf token event_id with
  | .error e => (.errorPage e, [.retrieve_ctf token event_id])
  | .ok details =>
      (.challengePage chal_id event_id (challenge_data details.challenges chal_id)
        (env.get_download_link token chal_id),
       [.retrieve_ctf token event_id, .get_download_link token chal_id])

/-! ### Helper lemmas on the grouping transform -/

theorem mem_bucket {challenges : List Challenge} {cat : Nat} {diff : String}
    {c : Challenge} :
    c ∈ bucket challenges cat diff ↔
      c ∈ challenges ∧ c.challenge_category_id = cat ∧ c.difficulty = diff := by
  simp [bucket, List.mem_filter]

theorem mem_keysInOrder : ∀ (l : List Nat) (x : Nat), x ∈ keysInOrder l ↔ x ∈ l
  | [], x => by simp [keysInOrder]
  | y :: ys, x => by
    simp only [keysInOrder, List.mem_cons, List.mem_filter, bne_iff_ne]
    constructor
    · rintro (rfl | ⟨hx, _⟩)
      · exact Or.inl rfl
      · exact Or.inr ((mem_keysInOrder ys x).mp hx)
    · rintro (rfl | hx)
      · exact Or.inl rfl
      · by_cases hxy : x = y
        · exact Or.inl hxy
        · exact Or.inr ⟨(mem_keysInOrder ys x).mpr hx, hxy⟩

theorem mem_grouped {challenges : List Challenge} {cat : Nat} {g : CategoryGroup} :
    (cat, g) ∈ grouped challenges ↔
      (∃ c ∈ challenges, c.challenge_category_id = cat) ∧
      g = ⟨categorie_name cat, difficultiesOf challenges cat⟩ := by
  simp only [grouped, List.mem_map, Prod.mk.injEq]
  constructor
  · rintro ⟨cid, hcid, rfl, rfl⟩
    exact ⟨List.mem_map.mp ((mem_keysInOrder _ _).mp hcid), rfl⟩
  · rintro ⟨hc, rfl⟩
    exact ⟨cat, (mem_keysInOrder _ _).mpr (List.mem_map.mpr hc), rfl, rfl⟩

theorem mem_difficultiesOf {challenges : List Challenge} {cat : Nat} {d : String}
    {l : List Challenge} :
    (d, l) ∈ difficultiesOf challenges cat ↔
      d ∈ difficulty_order ∧ bucket challenges cat d ≠ [] ∧
        l = bucket challenges cat d := by
  simp only [difficultiesOf, List.mem_map, List.mem_filter, Prod.mk.injEq,
    Bool.not_eq_true', List.isEmpty_eq_false]
  constructor
  · rintro ⟨a, ⟨ham, hane⟩, rfl, rfl⟩
    exact ⟨ham, hane, rfl⟩
  · rintro ⟨hd, hne, rfl⟩
    exact ⟨d, ⟨hd, hne⟩, rfl, rfl⟩

theorem difficultiesOf_map_fst (challenges : List Challenge) (cat : Nat) :
    (difficultiesOf challenges cat).map Prod.fst
      = difficulty_order.filter (fun d => !(bucket challenges cat d).isEmpty) := by
  rw [difficultiesOf, List.map_map]
  exact List.map_id _

/-- First-match decomposition for the linear scan: when some entry matches,
`find?` returns the first one, and the list splits around it with no match
before it. -/
theorem find?_first {α : Type} (p : α → Bool) :
    ∀ (l : List α), (∃ a ∈ l, p a) →
      ∃ pre a post, l = pre ++ a :: post ∧ p a = true ∧
        (∀ b ∈ pre, p b = false) ∧ l.find? p = some a
  | [], h => absurd h (by simp)
  | x :: xs, h => by
    by_cases hx : p x = true
    · exact ⟨[], x, xs, rfl, hx, by simp, List.find?_cons_of_pos xs hx⟩
    · have hex : ∃ a ∈ xs, p a := by
        obtain ⟨a, ha, hpa⟩ := h
        cases List.mem_cons.mp ha with
        | inl he => exact absurd (he ▸ hpa) hx
        | inr ht => exact ⟨a, ht, hpa⟩
      obtain ⟨pre, a, post, heq, hpa, hpre, hfind⟩ := find?_first p xs hex
      refine ⟨x :: pre, a, post, by rw [heq]; rfl, hpa, ?_, ?_⟩
      · intro b hb
        cases List.mem_cons.mp hb with
        | inl he => exact he ▸ eq_false_of_ne_true hx
        | inr ht => exact hpre b ht
      · rw [List.find?_cons_of_neg xs hx, hfind]

/-! ### Claim C6: Category Lookup -/

/-- C6: `categorie_name` is a pure total function: for every id that is a
key of the static category table it returns the mapped display name (in
particular `name(2) == "Web"`), and for every id not in the table it
returns the id itself unchanged (in particular `name(999) == 999`), never
failing. -/
theorem categorie_name_spec (cid : Nat) :
    (∀ s, categories.lookup cid = some s → categorie_name cid = NameVal.str s) ∧
    (categories.lookup cid = none → categorie_name cid = NameVal.id cid) ∧
    categorie_name 2 = NameVal.str "Web" ∧
    categorie_name 999 = NameVal.id 999 := by
  refine ⟨?_, ?_, by decide, by decide⟩
  · intro s h
    simp [categorie_name, h]
  · intro h
    simp [categorie_name, h]

theorem categorie_name_spec_witness :
    categorie_name 2 = NameVal.str "Web" ∧ categorie_name 999 = NameVal.id 999 :=
  ⟨(categorie_name_spec 2).1 "Web" (by decide),
   (categorie_name_spec 999).2.1 (by decide)⟩

/-! ### Claim C2: the Bridge absorbs every fault -/

/-- C2: for every token, tool name and parameter mapping, if any fault is
raised during connection, handshake, tool invocation or JSON parsing (i.e.
the underlying `_mcp_call` run errors with message `m`), `mcp_call` returns
the record `{error: "exception", error_description: m}`; and `mcp_call`
always returns a value — its result is a success value or such an error
record, never a propagated fault. -/
theorem mcp_call_absorbs_faults (r : Remote) (token : Option String)
    (tool : String) (params : Option (List (String × JVal))) :
    (∀ m, _mcp_call r token tool (params.getD []) = .error m →
      mcp_call r token tool params = .err ⟨"exception", m⟩) ∧
    ((∃ v, mcp_call r token tool params = .ok v) ∨
      (∃ m, mcp_call r token tool params = .err ⟨"exception", m⟩)) := by
  constructor
  · intro m h
    simp [mcp_call, h]
  · cases h : _mcp_call r token tool (params.getD []) with
    | ok v => exact Or.inl ⟨v, by simp [mcp_call, h]⟩
    | error m => exact Or.inr ⟨m, by simp [mcp_call, h]⟩

/-- A remote world whose transport connection always fails. -/
def remoteDown : Remote where
  connect := fun _ => .error "Connection refused"
  handshake := .ok ()
  listToolsOp := .ok ⟨[]⟩
  callTool := fun _ _ => .ok ⟨[]⟩
  jsonLoads := fun _ => .ok .null

theorem mcp_call_absorbs_faults_witness :
    mcp_call remoteDown (some "tok") "submit_flag" none
      = McpResult.err ⟨"exception", "Connection refused"⟩ :=
  (mcp_call_absorbs_faults remoteDown (some "tok") "submit_flag" none).1
    "Connection refused" rfl

/-! ### Claim C7: Bridge dispatch on the operation name -/

/-- C7: with the connection and handshake succeeding, for the `"list_tools"`
operation name the Bridge returns the raw tool-listing structure — and its
result does not depend on the tool-invocation or JSON-parsing effects at
all; for every other operation name it invokes the named tool with the
given parameters and returns the first content element of the response
parsed as JSON (propagating the invocation fault otherwise). -/
theorem bridge_dispatch_spec (r : Remote) (token : Option String)
    (params : List (String × JVal))
    (hc : r.connect token = .ok ()) (hh : r.handshake = .ok ()) :
    (∀ t, r.listToolsOp = .ok t →
      _mcp_call r token "list_tools" params = .ok (.listing t)) ∧
    (∀ f g, _mcp_call ⟨r.connect, r.handshake, r.listToolsOp, f, g⟩ token
        "list_tools" params = _mcp_call r token "list_tools" params) ∧
    (∀ tool, tool ≠ "list_tools" →
      (∀ res item rest v, r.callTool tool params = .ok res →
        res.content = item :: rest → r.jsonLoads item.text = .ok v →
        _mcp_call r token tool params = .ok (.json v)) ∧
      (∀ m, r.callTool tool params = .error m →
        _mcp_call r token tool params = .error m)) := by
  refine ⟨?_, ?_, ?_⟩
  · intro t ht
    simp [_mcp_call, hc, hh, ht]
  · intro f g
    simp [_mcp_call, hc, hh]
  · intro tool htool
    constructor
    · intro res item rest v hres hcontent hjson
      simp [_mcp_call, hc, hh, if_neg htool, hres, hcontent, hjson]
    · intro m hm
      simp [_mcp_call, hc, hh, if_neg htool, hm]

/-- A remote world where every step succeeds, with one tool answering a
JSON array. -/
def remoteUp : Remote where
  connect := fun _ => .ok ()
  handshake := .ok ()
  listToolsOp := .ok ⟨["retrieve_ctf", "submit_flag"]⟩
  callTool := fun _ _ => .ok ⟨[⟨"[1, 2]"⟩]⟩
  jsonLoads := fun s => if s = "[1, 2]" then .ok (.arr [.num 1, .num 2])
    else .error "Expecting value"

theorem bridge_dispatch_spec_witness :
    _mcp_call remoteUp none "list_tools" []
      = .ok (.listing ⟨["retrieve_ctf", "submit_flag"]⟩) ∧
    _mcp_call remoteUp none "retrieve_ctf" []
      = .ok (.json (.arr [.num 1, .num 2])) :=
  ⟨(bridge_dispatch_spec remoteUp none [] rfl rfl).1 _ rfl,
   ((bridge_dispatch_spec remoteUp none [] rfl rfl).2.2 "retrieve_ctf"
      (by decide)).1 _ ⟨"[1, 2]"⟩ [] _ rfl rfl rfl⟩

/-! ### Claim C1: the event-detail grouping -/

/-- C1: for every challenge list, the grouped view model groups challenges
first by `challenge_category_id` and then by `difficulty`: every entry
`(cat, g)` of the grouped structure carries the display name from Category
Lookup; its `difficulties` keys are exactly the fixed precedence order
`difficulty_order` restricted to the labels whose bucket is non-empty, in
that order; every listed bucket is the non-empty set of challenges with
that category and difficulty; conversely every non-empty bucket of a
present label is listed, and every challenge's category id has an entry. -/
theorem event_grouping_spec (challenges : List Challenge) :
    (∀ cat g, (cat, g) ∈ grouped challenges →
      g.name = categorie_name cat ∧
      g.difficulties.map Prod.fst
        = difficulty_order.filter (fun d => !(bucket challenges cat d).isEmpty) ∧
      (∀ d l, (d, l) ∈ g.difficulties →
        l = bucket challenges cat d ∧ l ≠ [] ∧
        (∀ c, c ∈ l ↔ c ∈ challenges ∧ c.challenge_category_id = cat ∧
          c.difficulty = d)) ∧
      (∀ d, d ∈ difficulty_order → bucket challenges cat d ≠ [] →
        (d, bucket challenges cat d) ∈ g.difficulties)) ∧
    (∀ c ∈ challenges,
      (c.challenge_category_id,
        (⟨categorie_name c.challenge_category_id,
          difficultiesOf challenges c.challenge_category_id⟩ : CategoryGroup))
        ∈ grouped challenges) := by
  constructor
  · intro cat g hg
    obtain ⟨-, rfl⟩ := mem_grouped.mp hg
    refine ⟨rfl, difficultiesOf_map_fst challenges cat, ?_, ?_⟩
    · intro d l hdl
      obtain ⟨-, hne, rfl⟩ := mem_difficultiesOf.mp hdl
      exact ⟨rfl, hne, fun c => mem_bucket⟩
    · intro d hd hne
      exact mem_difficultiesOf.mpr ⟨hd, hne, rfl⟩
  · intro c hc
    exact mem_grouped.mpr ⟨⟨c, hc, rfl⟩, rfl⟩

/-- The spec's grouping example: categories 2 ("Web", the A of the example)
with easy and medium challenges, 3 ("Pwn", the B) with a hard one. -/
def exampleChallenges : List Challenge :=
  [⟨10, 2, "easy", "a"⟩, ⟨11, 2, "medium", "b"⟩, ⟨12, 3, "hard", "c"⟩]

theorem event_grouping_spec_witness :
    ((2, (⟨NameVal.str "Web", difficultiesOf exampleChallenges 2⟩ : CategoryGroup))
        ∈ grouped exampleChallenges) ∧
    (⟨NameVal.str "Web", difficultiesOf exampleChallenges 2⟩ : CategoryGroup).name
        = categorie_name 2 ∧
    (difficultiesOf exampleChallenges 2).map Prod.fst = ["easy", "medium"] := by
  have hm : (2, (⟨NameVal.str "Web", difficultiesOf exampleChallenges 2⟩ :
      CategoryGroup)) ∈ grouped exampleChallenges := by decide
  refine ⟨hm, ((event_grouping_spec exampleChallenges).1 2 _ hm).1, ?_⟩
  have hfst := ((event_grouping_spec exampleChallenges).1 2 _ hm).2.1
  rw [show (⟨NameVal.str "Web", difficultiesOf exampleChallenges 2⟩ :
      CategoryGroup).difficulties = difficultiesOf exampleChallenges 2 from rfl] at hfst
  rw [hfst]
  decide

/-! ### Claim C8: challenges with an unknown difficulty label -/

/-- C8: every challenge whose difficulty is not one of the five labels of
`difficulty_order` is omitted from every difficulty bucket of the grouped
view model, while its category id still has a top-level entry; the grouping
is total (no failure). -/
theorem unknown_difficulty_omitted (challenges : List Challenge) (c : Challenge)
    (hc : c ∈ challenges) (hd : c.difficulty ∉ difficulty_order) :
    (∀ cat g d l, (cat, g) ∈ grouped challenges → (d, l) ∈ g.difficulties →
      c ∉ l) ∧
    c.challenge_category_id ∈ (grouped challenges).map Prod.fst := by
  constructor
  · intro cat g d l hg hdl hcl
    obtain ⟨-, rfl⟩ := mem_grouped.mp hg
    obtain ⟨hdo, -, rfl⟩ := mem_difficultiesOf.mp hdl
    obtain ⟨-, -, hdiff⟩ := mem_bucket.mp hcl
    exact hd (hdiff ▸ hdo)
  · have hmem : (c.challenge_category_id,
        (⟨categorie_name c.challenge_category_id,
          difficultiesOf challenges c.challenge_category_id⟩ : CategoryGroup))
        ∈ grouped challenges := mem_grouped.mpr ⟨⟨c, hc, rfl⟩, rfl⟩
    exact List.mem_map.mpr ⟨_, hmem, rfl⟩

/-- A challenge list with an "insane" difficulty entry, a label outside the
fixed precedence list. -/
def oddChallenges : List Challenge :=
  [⟨20, 3, "insane", "x"⟩, ⟨21, 3, "hard", "y"⟩]

theorem unknown_difficulty_omitted_witness :
    (⟨20, 3, "insane", "x"⟩ : Challenge) ∈ oddChallenges ∧
    (⟨20, 3, "insane", "x"⟩ : Challenge).difficulty ∉ difficulty_order ∧
    3 ∈ (grouped oddChallenges).map Prod.fst :=
  ⟨by decide, by decide,
   (unknown_difficulty_omitted oddChallenges ⟨20, 3, "insane", "x"⟩
      (by decide) (by decide)).2⟩

/-! ### Claim C9: buckets are stable sublists of the input -/

/-- C9: every difficulty bucket of the grouped view model is a sublist of
the input challenge list (so entries keep their relative input order and
are not duplicated), contains exactly the challenges of that category and
difficulty, and preserves each matching challenge's multiplicity. -/
theorem bucket_stable (challenges : List Challenge) (cat : Nat)
    (g : CategoryGroup) (d : String) (l : List Challenge)
    (hg : (cat, g) ∈ grouped challenges) (hdl : (d, l) ∈ g.difficulties) :
    List.Sublist l challenges ∧
    (∀ c, c ∈ l ↔ c ∈ challenges ∧ c.challenge_category_id = cat ∧
      c.difficulty = d) ∧
    (∀ c : Challenge, c.challenge_category_id = cat → c.difficulty = d →
      l.count c = challenges.count c) := by
  obtain ⟨-, rfl⟩ := mem_grouped.mp hg
  obtain ⟨-, -, rfl⟩ := mem_difficultiesOf.mp hdl
  refine ⟨List.filter_sublist _, fun c => mem_bucket, ?_⟩
  intro c h1 h2
  exact List.count_filter (by simp [h1, h2])

theorem bucket_stable_witness :
    List.Sublist (bucket exampleChallenges 2 "easy") exampleChallenges ∧
    (bucket exampleChallenges 2 "easy").count ⟨10, 2, "easy", "a"⟩
      = exampleChallenges.count ⟨10, 2, "easy", "a"⟩ := by
  have h := bucket_stable exampleChallenges 2
    ⟨categorie_name 2, difficultiesOf exampleChallenges 2⟩ "easy"
    (bucket exampleChallenges 2 "easy") (by decide) (by decide)
  exact ⟨h.1, h.2.2 ⟨10, 2, "easy", "a"⟩ rfl rfl⟩

/-! ### Claim C4: the challenge-detail linear scan -/

/-- C4: in the challenge-detail route, when the event details load, the
rendered challenge record is `challenge_data`, the first entry of the
challenge list whose `id` equals the requested id: when a matching entry
exists the list splits as `pre ++ c :: post` with no match in `pre` and the
scan returns `c`; when the id occurs exactly once it returns that entry;
when the id is absent it returns the empty record (`none`) and the handler
still renders (no failure). -/
theorem challenge_detail_scan (env : RouteEnv) (token : Option String)
    (event_id chal_id : Nat) (details : CtfDetails)
    (h : env.retrieve_ctf token event_id = .ok details) :
    (challenge env token event_id chal_id).1
      = .challengePage chal_id event_id (challenge_data details.challenges chal_id)
          (env.get_download_link token chal_id) ∧
    ((∃ c ∈ details.challenges, c.id = chal_id) →
      ∃ pre c post, details.challenges = pre ++ c :: post ∧ c.id = chal_id ∧
        (∀ b ∈ pre, b.id ≠ chal_id) ∧
        challenge_data details.challenges chal_id = some c) ∧
    ((∀ c ∈ details.challenges, c.id ≠ chal_id) →
      challenge_data details.challenges chal_id = none) ∧
    (∀ c ∈ details.challenges, c.id = chal_id →
      (∀ b ∈ details.challenges, b.id = chal_id → b = c) →
      challenge_data details.challenges chal_id = some c) := by
  refine ⟨by simp [challenge, h], ?_, ?_, ?_⟩
  · intro hex
    obtain ⟨pre, c, post, heq, hpc, hpre, hfind⟩ :=
      find?_first (fun c => c.id == chal_id) details.challenges
        (by obtain ⟨c, hc, he⟩ := hex; exact ⟨c, hc, by simp [he]⟩)
    refine ⟨pre, c, post, heq, by simpa using hpc, ?_, hfind⟩
    intro b hb
    simpa using hpre b hb
  · intro hall
    exact List.find?_eq_none.mpr (fun c hc => by simpa using hall c hc)
  · intro c hc hcid huniq
    obtain ⟨pre, a, post, heq, hpa, hpre, hfind⟩ :=
      find?_first (fun c => c.id == chal_id) details.challenges
        ⟨c, hc, by simp [hcid]⟩
    have ha_mem : a ∈ details.challenges := by
      rw [heq]
      exact List.mem_append_right _ (List.mem_cons_self _ _)
    have hac : a = c := huniq a ha_mem (by simpa using hpa)
    rw [challenge_data, hfind, hac]

/-- Concrete event details used by the route witnesses. -/
def detailsEx : CtfDetails := ⟨some "Example CTF", exampleChallenges⟩

/-- A route environment where retrieval succeeds, the caller has teams
7 and 9, joining succeeds, and the download-link call fails. -/
def envOk : RouteEnv where
  list_ctf_events := fun _ => .ok .null
  retrieve_my_teams := fun _ => .ok [⟨7⟩, ⟨9⟩]
  join_ctf_event := fun _ _ => .ok .null
  retrieve_ctf := fun _ _ => .ok detailsEx
  get_download_link := fun _ _ => .error ⟨"exception", "404 Not Found"⟩

theorem challenge_detail_scan_witness :
    challenge_data detailsEx.challenges 11 = some ⟨11, 2, "medium", "b"⟩ ∧
    challenge_data detailsEx.challenges 99 = none :=
  ⟨(challenge_detail_scan envOk none 1 11 detailsEx rfl).2.2.2
      ⟨11, 2, "medium", "b"⟩ (by decide) rfl (by decide),
   (challenge_detail_scan envOk none 1 99 detailsEx rfl).2.2.1 (by decide)⟩

/-! ### Claim C5: the join flow -/

/-- C5: when the teams retrieval returns a non-empty list, the join call is
issued with parameters `{ctf_id: event id, team_id: first team's id,
consent: true, ctf_password: null}` (visible in the handler's call trace);
an error result from the join call renders the error view, any other
result redirects to `/`. -/
theorem join_flow_spec (env : RouteEnv) (token : Option String)
    (event_id : Nat) (t : Team) (ts : List Team)
    (h : env.retrieve_my_teams token = .ok (t :: ts)) :
    (join env token event_id).2
      = [.retrieve_my_teams token,
         .join_ctf_event token ⟨event_id, t.id, true, none⟩] ∧
    (∀ e, env.join_ctf_event token ⟨event_id, t.id, true, none⟩ = .error e →
      (join env token event_id).1 = .errorPage e) ∧
    (∀ v, env.join_ctf_event token ⟨event_id, t.id, true, none⟩ = .ok v →
      (join env token event_id).1 = .redirect "/") := by
  refine ⟨?_, ?_, ?_⟩
  · cases hj : env.join_ctf_event token ⟨event_id, t.id, true, none⟩ with
    | error e => simp [join, h, hj]
    | ok v => simp [join, h, hj]
  · intro e he
    simp [join, h, he]
  · intro v hv
    simp [join, h, hv]

theorem join_flow_spec_witness :
    (join envOk none 42).2
      = [TraceCall.retrieve_my_teams none,
         TraceCall.join_ctf_event none ⟨42, 7, true, none⟩] ∧
    (join envOk none 42).1 = Response.redirect "/" :=
  ⟨(join_flow_spec envOk none 42 ⟨7⟩ [⟨9⟩] rfl).1,
   (join_flow_spec envOk none 42 ⟨7⟩ [⟨9⟩] rfl).2.2 .null rfl⟩

/-! ### Claim C10: the download-link call is unconditional and unchecked -/

/-- C10: in the challenge-detail route, once the event details load, the
`get_download_link` bridge call is in the handler's trace for every
requested id — also when the id is absent from the challenge list — and
its result is embedded verbatim in the rendered challenge view: an error
record from that call still renders the challenge view (never the error
view). -/
theorem download_link_unconditional (env : RouteEnv) (token : Option String)
    (event_id chal_id : Nat) (details : CtfDetails)
    (h : env.retrieve_ctf token event_id = .ok details) :
    TraceCall.get_download_link token chal_id
        ∈ (challenge env token event_id chal_id).2 ∧
    (challenge env token event_id chal_id).1
      = .challengePage chal_id event_id (challenge_data details.challenges chal_id)
          (env.get_download_link token chal_id) ∧
    (∀ e, env.get_download_link token chal_id = .error e →
      (challenge env token event_id chal_id).1
        = .challengePage chal_id event_id
            (challenge_data details.challenges chal_id) (.error e)) ∧
    (∀ e2, (challenge env token event_id chal_id).1 ≠ .errorPage e2) := by
  refine ⟨?_, ?_, ?_, ?_⟩
  · simp [challenge, h]
  · simp [challenge, h]
  · intro e he
    simp [challenge, h, he]
  · intro e2
    simp [challenge, h]

theorem download_link_unconditional_witness :
    (challenge envOk none 1 99).1
      = Response.challengePage 99 1 none (.error ⟨"exception", "404 Not Found"⟩) :=
  (download_link_unconditional envOk none 1 99 detailsEx rfl).2.2.1
    ⟨"exception", "404 Not Found"⟩ rfl

/-! ### Claim C3 (corrected): which routes check the token -/

/-- A route environment where every bridge call fails with an
authentication error, as a real remote would answer calls carrying
`Bearer None`. -/
def envDown : RouteEnv where
  list_ctf_events := fun _ => .error ⟨"exception", "401 Unauthorized"⟩
  retrieve_my_teams := fun _ => .error ⟨"exception", "401 Unauthorized"⟩
  join_ctf_event := fun _ _ => .error ⟨"exception", "401 Unauthorized"⟩
  retrieve_ctf := fun _ _ => .error ⟨"exception", "401 Unauthorized"⟩
  get_download_link := fun _ _ => .error ⟨"exception", "401 Unauthorized"⟩

/-- C3 counterexample: the `/join/<event_id>` route reads the token cookie
but never checks it: with no `token` cookie it still issues the
`retrieve_my_teams` bridge call (passing token `None`) and does not
redirect to `/login` (here the handler then crashes on `teams[0]`). -/
theorem join_no_token_still_calls :
    (join envDown none 5).2 = [TraceCall.retrieve_my_teams none] ∧
    (join envDown none 5).1 ≠ Response.redirect "/login" := by
  refine ⟨rfl, ?_⟩
  intro hco
  have hco' : Response.crash "KeyError: 0" = Response.redirect "/login" := hco
  exact Response.noConfusion hco'

/-- C3 amended: only the routes that test the cookie redirect: `/` with a
falsy token (absent cookie or empty string) redirects to `/login` without
any bridge call; the `/join`, `/event` and `/challenge` handlers perform no
token check — whatever the environment, each issues its first bridge call,
passing along the absent token. -/
theorem token_redirect_only_checked_routes (env : RouteEnv)
    (token : Option String) (eid cid : Nat) (h : truthy token = false) :
    home env token = (.redirect "/login", []) ∧
    (join env token eid).2.head? = some (.retrieve_my_teams token) ∧
    (event env token eid).2.head? = some (.retrieve_ctf token eid) ∧
    (challenge env token eid cid).2.head? = some (.retrieve_ctf token eid) := by
  refine ⟨by simp [home, h], ?_, ?_, ?_⟩
  · cases hj : env.retrieve_my_teams token with
    | error e => simp [join, hj]
    | ok ts =>
      cases ts with
      | nil => simp [join, hj]
      | cons t rest =>
        cases hjoin : env.join_ctf_event token ⟨eid, t.id, true, none⟩ with
        | error e => simp [join, hj, hjoin]
        | ok v => simp [join, hj, hjoin]
  · cases hr : env.retrieve_ctf token eid with
    | error e => simp [event, hr]
    | ok d => simp [event, hr]
  · cases hr : env.retrieve_ctf token eid with
    | error e => simp [challenge, hr]
    | ok d => simp [challenge, hr]

theorem token_redirect_only_checked_routes_witness :
    home envDown none = (Response.redirect "/login", []) ∧
    (join envDown none 5).2.head? = some (TraceCall.retrieve_my_teams none) :=
  ⟨(token_redirect_only_checked_routes envDown none 5 0 rfl).1,
   (token_redirect_only_checked_routes envDown none 5 0 rfl).2.1⟩

end HtbMcp
